import Mathlib

/-!
# lssdp: transport layer of a simple SSDP client

A shallow embedding of `lssdp.c`.  Character arrays are lists of characters
(the raw array, NUL bytes included), C strings are read from them up to the
first NUL.  Calls into the operating system are answered by an explicit record
of outcomes that each embedded function receives, and every embedded function
returns, next to its C return value, the sequence of system calls and log
calls it made.

`lssdp.h` is not part of the sources: the two array sizes it defines are
parameters (`Header`), and the fields of `lssdp_ctx` and `lssdp_interface` are
those that `lssdp.c` reads and writes.
-/

namespace Lssdp

/-! ## Constants of `lssdp.c` -/

def LSSDP_IP_LEN : Nat := 16

def LSSDP_MESSAGE_MAX_LEN : Nat := 2048

def LSSDP_MULTICAST_ADDR : List Char := "239.255.255.250".toList

def AF_INET : Nat := 2

def EWOULDBLOCK : Nat := 11

def EBADF : Nat := 9

/-- The sizes that `lssdp.h` defines; the header is not among the sources, so
they are parameters of the embedding. -/
structure Header where
  LSSDP_INTERFACE_NAME_LEN : Nat
  LSSDP_INTERFACE_LIST_SIZE : Nat
deriving DecidableEq, Repr

/-! ## C strings and formatted output -/

/-- The NUL character. -/
def NUL : Char := Char.ofNat 0

/-- The C string stored at the start of a character array: the characters
before the first NUL. -/
def cstr (a : List Char) : List Char := a.takeWhile (fun c => c != NUL)

/-- Length of the C string stored in an array (strlen). -/
def strlen (a : List Char) : Nat := (cstr a).length

/-- One piece of a printf format together with its argument. -/
inductive FmtArg where
  | lit (s : List Char)
  | str (s : List Char)
  | int (d : Int)
deriving DecidableEq, Repr

/-- Conversion `%u`: the decimal digits of a natural number. -/
def fmt_u (n : Nat) : List Char := Nat.toDigits 10 n

/-- Conversion `%d`. -/
def fmt_d (d : Int) : List Char :=
  if d < 0 then '-' :: fmt_u d.natAbs else fmt_u d.natAbs

/-- The full, unbounded expansion of a format. `%s` copies its argument up to
the first NUL. -/
def expand : List FmtArg → List Char
  | [] => []
  | FmtArg.lit s :: rest => s ++ expand rest
  | FmtArg.str s :: rest => cstr s ++ expand rest
  | FmtArg.int d :: rest => fmt_d d ++ expand rest

/-- The call snprintf(buf, size, ...): at most `size - 1` characters of the
expansion are stored at the start of `buf`, followed by a NUL; the rest of the
array keeps its content.  With `size = 0` nothing is stored. -/
def snprintf (buf : List Char) (size : Nat) (pieces : List FmtArg) : List Char :=
  if size = 0 then buf
  else
    let s := (expand pieces).take (size - 1)
    s ++ NUL :: buf.drop (s.length + 1)

/-! ## Data model -/

/-- Modelled from the spec: the struct lssdp_interface is declared in lssdp.h,
which is not among the sources. An Interface has a bounded name and an
address of four components; `lssdp.c` uses them as the character array `name`
of LSSDP_INTERFACE_NAME_LEN characters and the array `ip` of four numbers. -/
structure lssdp_interface where
  name : List Char
  ip : List Int
deriving DecidableEq, Repr

/-- Modelled from the spec: the struct lssdp_ctx is declared in lssdp.h, which
is not among the sources. A Context has a socket handle, a port, a search
target, the interface table and an optional data callback; `lssdp.c` uses them
as `sock`, `port`, `header.st` (here `st`), `interface` and `data_callback`
(`none` for a NULL function pointer). -/
structure lssdp_ctx where
  sock : Int
  port : Int
  interface : List lssdp_interface
  st : List Char
  data_callback : Option Nat
deriving DecidableEq, Repr

/-- An interface entry after memset to zero. -/
def zero_interface (h : Header) : lssdp_interface :=
  { name := List.replicate h.LSSDP_INTERFACE_NAME_LEN NUL, ip := [0, 0, 0, 0] }

inductive LogLevel where
  | DEBUG
  | WARN
  | ERROR
deriving DecidableEq, Repr

inductive SockOpt where
  | FIONBIO
  | SIOCGIFCONF
  | SO_REUSEADDR
  | IP_ADD_MEMBERSHIP
  | IP_MULTICAST_LOOP
deriving DecidableEq, Repr

/-- What a function does that is visible outside it: system calls, log calls
and the data callback. -/
inductive Event where
  | log (level : LogLevel)
  | socket (ret : Int)
  | close (fd : Int)
  | ioctl (fd : Int) (req : SockOpt)
  | setsockopt (fd : Int) (opt : SockOpt)
  | bind (fd : Int) (addr : List Char) (port : Int)
  | inet_aton (cp : List Char)
  | sendto (fd : Int) (data : List Char) (group : List Char) (port : Int)
  | recvfrom (fd : Int)
  | data_callback (fn : Nat) (lssdp : lssdp_ctx) (buffer : List Nat) (len : Int)
deriving DecidableEq, Repr

/-- Return value of socket(): a descriptor, or -1. -/
def socket_ret : Option Nat → Int
  | none => -1
  | some fd => (fd : Int)

/-! ## 05. lssdp_send_msearch: the M-SEARCH packet -/

/-- The format and arguments of the snprintf call in lssdp_send_msearch. -/
def msearch_format (lssdp : lssdp_ctx) : List FmtArg :=
  [ FmtArg.lit "M-SEARCH * HTTP/1.1\r\n".toList,
    FmtArg.lit "HOST:".toList, FmtArg.str LSSDP_MULTICAST_ADDR, FmtArg.lit ":".toList,
    FmtArg.int lssdp.port, FmtArg.lit "\r\n".toList,
    FmtArg.lit "MAN:\"ssdp:discover\"\r\n".toList,
    FmtArg.lit "ST:".toList, FmtArg.str lssdp.st, FmtArg.lit "\r\n".toList,
    FmtArg.lit "MX:1\r\n".toList,
    FmtArg.lit "\r\n".toList ]

/-- The array msearch[1024] after the snprintf call. -/
def msearch_packet (lssdp : lssdp_ctx) : List Char :=
  snprintf (List.replicate 1024 NUL) 1024 (msearch_format lssdp)

/-! ## send_multicast_data -/

/-- Outcomes of the system calls of one send_multicast_data call: the
descriptor socket() hands out (`none`: it fails) and whether each later call
succeeds. -/
structure SendOS where
  socket : Option Nat
  bind_ok : Bool
  setsockopt_ok : Bool
  inet_aton_ok : Bool
  sendto_ok : Bool
deriving DecidableEq, Repr

/-- The text that sprintf(ip, "%d.%d.%d.%d", ...) produces. -/
def sprintf_ip (ip : List Int) : List Char :=
  expand [ FmtArg.int (ip.getD 0 0), FmtArg.lit ".".toList, FmtArg.int (ip.getD 1 0),
           FmtArg.lit ".".toList, FmtArg.int (ip.getD 2 0), FmtArg.lit ".".toList,
           FmtArg.int (ip.getD 3 0) ]

/-- The part of send_multicast_data between the socket() call and the label
`end`: the value of `result` and the calls made. -/
def send_multicast_body (data : List Char) (interface : lssdp_interface) (ssdp_port : Int)
    (os : SendOS) (fd : Int) : Int × List Event :=
  if fd < 0 then (-1, [Event.socket fd, Event.log LogLevel.ERROR])
  else
    let ip := sprintf_ip interface.ip
    let e3 := [Event.socket fd, Event.bind fd ip 0]
    if !os.bind_ok then (-1, e3 ++ [Event.log LogLevel.ERROR])
    else
      let e4 := e3 ++ [Event.setsockopt fd SockOpt.IP_MULTICAST_LOOP]
      if !os.setsockopt_ok then (-1, e4 ++ [Event.log LogLevel.ERROR])
      else
        let e5 := e4 ++ [Event.inet_aton LSSDP_MULTICAST_ADDR]
        if !os.inet_aton_ok then (-1, e5 ++ [Event.log LogLevel.ERROR])
        else
          let e6 := e5 ++ [Event.sendto fd (cstr data) LSSDP_MULTICAST_ADDR ssdp_port]
          if !os.sendto_ok then (-1, e6 ++ [Event.log LogLevel.ERROR])
          else (0, e6)

/-- The function send_multicast_data (the `data` pointer is not NULL): return
value and the calls made. -/
def send_multicast_data (data : List Char) (interface : lssdp_interface) (ssdp_port : Int)
    (os : SendOS) : Int × List Event :=
  let data_len := strlen data
  if data_len = 0 then (-1, [Event.log LogLevel.ERROR])
  else if strlen interface.name = 0 then (-1, [Event.log LogLevel.ERROR])
  else if ssdp_port < 0 ∨ ssdp_port > 0xFFFF then (-1, [Event.log LogLevel.ERROR])
  else
    let fd := socket_ret os.socket
    let body := send_multicast_body data interface ssdp_port os fd
    (body.1, body.2 ++ (if fd > 0 then [Event.close fd] else []))

/-! ## 05. lssdp_send_msearch: the loop over the interfaces -/

/-- One call of send_multicast_data made by the loop: the loop index, the
arguments, the return value and the calls made inside. -/
structure SendCall where
  index : Nat
  interface : lssdp_interface
  data : List Char
  port : Int
  ret : Int
  events : List Event
deriving DecidableEq, Repr

/-- The loop `for (i = 0; i < LSSDP_INTERFACE_LIST_SIZE; i++)` of
lssdp_send_msearch over the entries with index `i`, `i + 1`, ... that are
still to be visited. The return value of send_multicast_data is recorded but
not inspected. -/
def msearch_loop (msearch : List Char) (port : Int) (os : Nat → SendOS) :
    List lssdp_interface → Nat → List SendCall
  | [], _ => []
  | interface :: rest, i =>
    if strlen interface.name = 0 then []
    else
      let r := send_multicast_data msearch interface port (os i)
      { index := i, interface := interface, data := msearch, port := port,
        ret := r.1, events := r.2 } :: msearch_loop msearch port os rest (i + 1)

/-- The whole loop of lssdp_send_msearch over the table `lssdp->interface`:
the calls of send_multicast_data it makes, in order. -/
def msearch_fanout (h : Header) (table : List lssdp_interface) (msearch : List Char)
    (port : Int) (os : Nat → SendOS) : List SendCall :=
  msearch_loop msearch port os (table.take h.LSSDP_INTERFACE_LIST_SIZE) 0

/-! ## 02. lssdp_get_network_interface -/

/-- An IPv4 address as the operating system stores it: four bytes. -/
structure in_addr where
  b0 : Fin 256
  b1 : Fin 256
  b2 : Fin 256
  b3 : Fin 256
deriving DecidableEq, Repr

/-- One struct ifreq of the SIOCGIFCONF answer. -/
structure ifreq where
  ifr_name : List Char
  sa_family : Nat
  sin_addr : in_addr
deriving DecidableEq, Repr

/-- The library function inet_ntop for AF_INET: the dotted text, or `none`
(ENOSPC) when text and terminator do not fit in `size` characters. -/
def inet_ntop (src : in_addr) (size : Nat) : Option (List Char) :=
  let tmp := fmt_u src.b0.val ++ ".".toList ++ fmt_u src.b1.val ++ ".".toList ++
    fmt_u src.b2.val ++ ".".toList ++ fmt_u src.b3.val
  if tmp.length < size then some tmp else none

/-- The library function strtok_r on the rest of the string still to be
scanned: the next token (`none` for NULL) and the new saved position. -/
def strtok_r (s : List Char) (delim : List Char) : Option (List Char) × List Char :=
  let s1 := s.dropWhile (fun c => delim.contains c)
  if s1.isEmpty then (none, [])
  else
    let tok := s1.takeWhile (fun c => !delim.contains c)
    let rest := s1.dropWhile (fun c => !delim.contains c)
    (some tok, rest.tail)

def isspace (c : Char) : Bool :=
  c.toNat = 32 || (9 ≤ c.toNat && c.toNat ≤ 13)

/-- The digits part of atoi: accumulate while the next character is a digit. -/
def atoi_digits : Nat → List Char → Nat
  | acc, [] => acc
  | acc, c :: cs =>
    if 48 ≤ c.toNat && c.toNat ≤ 57 then atoi_digits (acc * 10 + (c.toNat - 48)) cs else acc

/-- The library function atoi (values within the range of int). -/
def atoi (s : List Char) : Int :=
  match s.dropWhile isspace with
  | [] => 0
  | c :: cs =>
    if c = '-' then -((atoi_digits 0 cs : Nat) : Int)
    else if c = '+' then ((atoi_digits 0 cs : Nat) : Int)
    else ((atoi_digits 0 (c :: cs) : Nat) : Int)

/-- The loop `for (i = 0; i < 4; i++)` that fills `interface[num].ip`:
`n` iterations are left, `s` is the position strtok_r saved. `none` when
strtok_r returns NULL, which atoi must not be given. -/
def set_ip : Nat → Nat → List Char → List Int → Option (List Int)
  | 0, _, _, ipv => some ipv
  | n + 1, i, s, ipv =>
    match strtok_r s ".".toList with
    | (none, _) => none
    | (some tok, rest) => set_ip n (i + 1) rest (ipv.set i (atoi tok))

/-- Outcomes of the system calls of lssdp_get_network_interface: the
descriptor socket() hands out (`none`: it fails) and the interface list that
ioctl(SIOCGIFCONF) writes (`none`: it fails). -/
structure RefreshOS where
  socket : Option Nat
  ioctl : Option (List ifreq)
deriving DecidableEq, Repr

/-- The loop over the struct ifreq entries: `num` is the counter, `table` is
`lssdp->interface`, `ev` the calls made so far. The result is the value of
`result` at the label `end`, the table and the calls; `none` when an access
falls outside an array or atoi is given NULL. -/
def ifconf_loop (h : Header) :
    List ifreq → Nat → List lssdp_interface → List Event →
      Option (Int × List lssdp_interface × List Event)
  | [], _, table, ev => some (0, table, ev)
  | ifr :: rest, num, table, ev =>
    if ifr.sa_family ≠ AF_INET then ifconf_loop h rest num table ev
    else
      match inet_ntop ifr.sin_addr LSSDP_IP_LEN with
      | none => some (-1, table, ev ++ [Event.log LogLevel.ERROR])
      | some ip =>
        if num ≥ h.LSSDP_INTERFACE_LIST_SIZE then
          ifconf_loop h rest (num + 1) table
            (ev ++ [Event.log LogLevel.WARN, Event.log LogLevel.DEBUG])
        else
          match table[num]? with
          | none => none
          | some entry =>
            let name := snprintf entry.name (h.LSSDP_INTERFACE_NAME_LEN - 1)
              [FmtArg.str ifr.ifr_name]
            match set_ip 4 0 ip entry.ip with
            | none => none
            | some ipv =>
              ifconf_loop h rest (num + 1) (table.set num { name := name, ip := ipv }) ev

structure RefreshResult where
  ret : Int
  lssdp : lssdp_ctx
  events : List Event
deriving DecidableEq, Repr

/-- The function lssdp_get_network_interface on a context (`lssdp` is not
NULL). -/
def lssdp_get_network_interface (h : Header) (lssdp : lssdp_ctx) (os : RefreshOS) :
    Option RefreshResult :=
  let table0 := List.replicate h.LSSDP_INTERFACE_LIST_SIZE (zero_interface h)
  let fd := socket_ret os.socket
  let body : Option (Int × List lssdp_interface × List Event) :=
    if fd < 0 then some (-1, table0, [Event.socket fd, Event.log LogLevel.ERROR])
    else
      match os.ioctl with
      | none =>
        some (-1, table0,
          [Event.socket fd, Event.ioctl fd SockOpt.SIOCGIFCONF, Event.log LogLevel.ERROR])
      | some ifs =>
        ifconf_loop h ifs 0 table0 [Event.socket fd, Event.ioctl fd SockOpt.SIOCGIFCONF]
  body.map fun r =>
    { ret := r.1, lssdp := { lssdp with interface := r.2.1 },
      events := r.2.2 ++ (if fd > 0 then [Event.close fd] else []) }

/-! ## 05. lssdp_send_msearch -/

structure MsearchOS where
  refresh : RefreshOS
  send : Nat → SendOS

structure MsearchResult where
  ret : Int
  lssdp : lssdp_ctx
  refresh_events : List Event
  calls : List SendCall
deriving DecidableEq, Repr

/-- The function lssdp_send_msearch: the interface list is refreshed (the
return value of that call is dropped), the packet is formatted, and the loop
runs over the table. -/
def lssdp_send_msearch (h : Header) (lssdp : lssdp_ctx) (os : MsearchOS) :
    Option MsearchResult :=
  match lssdp_get_network_interface h lssdp os.refresh with
  | none => none
  | some r =>
    let lssdp1 := r.lssdp
    let msearch := msearch_packet lssdp1
    let calls := msearch_fanout h lssdp1.interface msearch lssdp1.port os.send
    some { ret := 0, lssdp := lssdp1, refresh_events := r.events, calls := calls }

/-! ## 03. lssdp_create_socket -/

/-- Outcomes of the system calls of lssdp_create_socket. -/
structure CreateOS where
  socket : Option Nat
  ioctl_ok : Bool
  reuseaddr_ok : Bool
  bind_ok : Bool
  membership_ok : Bool
deriving DecidableEq, Repr

/-- The part of lssdp_create_socket between the socket() call and the label
`end`: the value of `result` and the calls made. -/
def create_socket_body (sock : Int) (port : Int) (os : CreateOS) : Int × List Event :=
  let e1 := [Event.ioctl sock SockOpt.FIONBIO]
  if !os.ioctl_ok then (-1, e1 ++ [Event.log LogLevel.ERROR])
  else
    let e2 := e1 ++ [Event.setsockopt sock SockOpt.SO_REUSEADDR]
    if !os.reuseaddr_ok then (-1, e2 ++ [Event.log LogLevel.ERROR])
    else
      let e3 := e2 ++ [Event.bind sock "0.0.0.0".toList port]
      if !os.bind_ok then (-1, e3 ++ [Event.log LogLevel.ERROR])
      else
        let e4 := e3 ++ [Event.setsockopt sock SockOpt.IP_ADD_MEMBERSHIP]
        if !os.membership_ok then (-1, e4 ++ [Event.log LogLevel.ERROR])
        else (0, e4)

structure CreateResult where
  ret : Int
  lssdp : lssdp_ctx
  events : List Event
deriving DecidableEq, Repr

/-- The function lssdp_create_socket on a context (`lssdp` is not NULL). -/
def lssdp_create_socket (lssdp : lssdp_ctx) (os : CreateOS) : CreateResult :=
  let pre : lssdp_ctx × List Event :=
    if lssdp.sock ≥ 0 then
      ({ lssdp with sock := -1 }, [Event.log LogLevel.DEBUG, Event.close lssdp.sock])
    else (lssdp, [])
  let lssdp1 : lssdp_ctx := { pre.1 with sock := socket_ret os.socket }
  let e0 := pre.2 ++ [Event.socket lssdp1.sock]
  if lssdp1.sock < 0 then
    { ret := -1, lssdp := lssdp1, events := e0 ++ [Event.log LogLevel.ERROR] }
  else
    let body := create_socket_body lssdp1.sock lssdp1.port os
    if body.1 = -1 then
      { ret := body.1, lssdp := { lssdp1 with sock := -1 },
        events := e0 ++ body.2 ++ [Event.close lssdp1.sock] }
    else { ret := body.1, lssdp := lssdp1, events := e0 ++ body.2 }

/-! ## 04. lssdp_read_socket -/

/-- Outcome of the recvfrom call: it fails with an errno (EWOULDBLOCK when the
non-blocking socket has nothing pending), or a datagram is pending. -/
inductive RecvOS where
  | error (errno : Nat)
  | datagram (bytes : List Nat)
deriving DecidableEq, Repr

/-- The function lssdp_read_socket: return value and the calls made.  recvfrom
stores at most sizeof(buffer) = 2048 bytes of the datagram in the zeroed
buffer and returns the number of bytes stored. -/
def lssdp_read_socket (lssdp : lssdp_ctx) (os : RecvOS) : Int × List Event :=
  let buffer0 : List Nat := List.replicate 2048 0
  let received : Int × List Nat :=
    match os with
    | RecvOS.error _ => (-1, buffer0)
    | RecvOS.datagram bytes =>
      let got := bytes.take buffer0.length
      ((got.length : Int), got ++ buffer0.drop got.length)
  let recv_len := received.1
  let buffer := received.2
  if recv_len = -1 then (-1, [Event.recvfrom lssdp.sock, Event.log LogLevel.ERROR])
  else
    match lssdp.data_callback with
    | none => (0, [Event.recvfrom lssdp.sock, Event.log LogLevel.WARN])
    | some fn => (0, [Event.recvfrom lssdp.sock, Event.data_callback fn lssdp buffer recv_len])

/-! ## Open descriptors -/

/-- The descriptors open after a sequence of calls, from those open before:
a successful socket() adds its descriptor, close() removes it. -/
def open_after : List Int → List Event → List Int
  | fds, [] => fds
  | fds, Event.socket ret :: es => open_after (if ret < 0 then fds else ret :: fds) es
  | fds, Event.close fd :: es => open_after (fds.filter (fun x => x != fd)) es
  | fds, _ :: es => open_after fds es

/-! ## Specification-side definitions -/

/-- The discovery request as the specification writes it: the fixed text with
the port in decimal and the search target substituted. -/
def spec_msearch_text (searchTarget : List Char) (port : Int) : List Char :=
  "M-SEARCH * HTTP/1.1\r\nHOST:239.255.255.250:".toList ++ fmt_d port ++
    "\r\nMAN:\"ssdp:discover\"\r\nST:".toList ++ searchTarget ++ "\r\nMX:1\r\n\r\n".toList

/-- A decimal digit character. -/
def is_digit (c : Char) : Prop := 48 ≤ c.toNat ∧ c.toNat ≤ 57

instance (c : Char) : Decidable (is_digit c) := by unfold is_digit; infer_instance

/-- The IPv4 entries of an interface list, in the order of the list. -/
def ipv4_entries (ifs : List ifreq) : List ifreq :=
  ifs.filter (fun r => decide (r.sa_family = AF_INET))

/-- The table entry that holds the name and the address bytes of one entry of
the interface list, written over a cleared slot. -/
def stored_entry (h : Header) (ifr : ifreq) : lssdp_interface :=
  { name := snprintf (zero_interface h).name (h.LSSDP_INTERFACE_NAME_LEN - 1)
      [FmtArg.str ifr.ifr_name],
    ip := [(ifr.sin_addr.b0.val : Int), (ifr.sin_addr.b1.val : Int),
           (ifr.sin_addr.b2.val : Int), (ifr.sin_addr.b3.val : Int)] }

/-- A log call. -/
def is_log (e : Event) : Prop := ∃ l, e = Event.log l

/-- The calls with which lssdp_create_socket gives up a socket the context
owns when it is called. -/
def closes_prior (lssdp : lssdp_ctx) : List Event :=
  if lssdp.sock ≥ 0 then [Event.log LogLevel.DEBUG, Event.close lssdp.sock] else []

/-- The descriptor the context owns: `sock`, unless it is the unset value. -/
def owned (lssdp : lssdp_ctx) : List Int :=
  if lssdp.sock ≥ 0 then [lssdp.sock] else []

/-! ## Lemmas: C strings, digits, formatted output -/

theorem digitChar_is_digit (d : Nat) (hd : d < 10) : is_digit (Nat.digitChar d) := by
  interval_cases d <;> decide

theorem toDigitsCore_all (P : Char → Prop) (hP : ∀ d, d < 10 → P (Nat.digitChar d)) :
    ∀ (f n : Nat) (acc : List Char), (∀ c ∈ acc, P c) →
      ∀ c ∈ Nat.toDigitsCore 10 f n acc, P c := by
  intro f
  induction f with
  | zero => intro n acc hacc c hc; simpa [Nat.toDigitsCore] using hacc c hc
  | succ f ih =>
    intro n acc hacc c hc
    have hd : P (Nat.digitChar (n % 10)) := hP _ (Nat.mod_lt _ (by decide))
    have hacc2 : ∀ x ∈ Nat.digitChar (n % 10) :: acc, P x := by
      intro x hx
      rcases List.mem_cons.mp hx with h | h
      · exact h ▸ hd
      · exact hacc x h
    unfold Nat.toDigitsCore at hc
    by_cases h0 : n / 10 = 0
    · simp only [h0, if_true] at hc
      exact hacc2 c hc
    · simp only [h0, if_false] at hc
      exact ih _ _ hacc2 c hc

theorem fmt_u_is_digit (n : Nat) : ∀ c ∈ fmt_u n, is_digit c :=
  toDigitsCore_all is_digit digitChar_is_digit _ _ [] (by simp)

theorem is_digit_ne_NUL {c : Char} (h : is_digit c) : c ≠ NUL := by
  intro hc
  subst hc
  revert h
  decide

theorem fmt_d_no_NUL (d : Int) : ∀ c ∈ fmt_d d, c ≠ NUL := by
  intro c hc
  unfold fmt_d at hc
  split at hc
  · rcases List.mem_cons.mp hc with h | h
    · subst h; decide
    · exact is_digit_ne_NUL (fmt_u_is_digit _ c h)
  · exact is_digit_ne_NUL (fmt_u_is_digit _ c hc)

theorem cstr_no_NUL (a : List Char) : ∀ c ∈ cstr a, c ≠ NUL := by
  intro c hc
  have := List.mem_takeWhile_imp hc
  simpa using this

theorem cstr_append_NUL (s rest : List Char) (hs : ∀ c ∈ s, c ≠ NUL) :
    cstr (s ++ NUL :: rest) = s := by
  induction s with
  | nil => simp [cstr, List.takeWhile]
  | cons c s ih =>
    have hc : c ≠ NUL := hs c (List.mem_cons_self _ _)
    have := ih (fun x hx => hs x (List.mem_cons_of_mem _ hx))
    have hb : (c != NUL) = true := by simpa using hc
    simp only [cstr] at this ⊢
    rw [List.cons_append, List.takeWhile_cons, hb, if_pos rfl, this]

theorem expand_msearch_format (lssdp : lssdp_ctx) :
    expand (msearch_format lssdp) = spec_msearch_text (cstr lssdp.st) lssdp.port := by
  simp only [msearch_format, expand, spec_msearch_text]
  have h : cstr LSSDP_MULTICAST_ADDR = "239.255.255.250".toList := by decide
  rw [h]
  simp [List.append_assoc]

theorem spec_msearch_text_no_NUL (st : List Char) (port : Int) :
    ∀ c ∈ spec_msearch_text (cstr st) port, c ≠ NUL := by
  intro c hc
  simp only [spec_msearch_text, List.mem_append] at hc
  rcases hc with (((h | h) | h) | h) | h
  · intro hn; subst hn; revert h; decide
  · exact fmt_d_no_NUL _ c h
  · intro hn; subst hn; revert h; decide
  · exact cstr_no_NUL _ c h
  · intro hn; subst hn; revert h; decide

theorem msearch_packet_eq (lssdp : lssdp_ctx) :
    cstr (msearch_packet lssdp) = (spec_msearch_text (cstr lssdp.st) lssdp.port).take 1023 := by
  unfold msearch_packet snprintf
  simp only [expand_msearch_format]
  rw [if_neg (by decide)]
  exact cstr_append_NUL _ _ (fun c hc => spec_msearch_text_no_NUL _ _ c (List.mem_of_mem_take hc))

/-! ## Lemmas: the text of an address and its tokens -/

set_option maxRecDepth 100000 in
theorem fmt_u_byte (b : Fin 256) :
    fmt_u b.val ≠ [] ∧ (fmt_u b.val).length ≤ 3 ∧ atoi (fmt_u b.val) = (b.val : Int) := by
  revert b
  decide

theorem is_digit_not_delim {c : Char} (h : is_digit c) : (".".toList.contains c) = false := by
  have hne : c ≠ '.' := by
    intro hc
    subst hc
    revert h
    decide
  simp [hne]

theorem dropWhile_head_false {α : Type} (p : α → Bool) (c : α) (cs : List α)
    (h : p c = false) : (c :: cs).dropWhile p = c :: cs := by
  simp [List.dropWhile_cons, h]

/-- The function strtok_r on a non-empty run of digits followed by the end
of the string or by a dot: the run is the token, and the saved position is
behind the dot. -/
theorem strtok_r_digits (d rest : List Char) (hd : ∀ c ∈ d, is_digit c) (hne : d ≠ []) :
    strtok_r d ".".toList = (some d, []) ∧
    strtok_r (d ++ '.' :: rest) ".".toList = (some d, rest) := by
  obtain ⟨c, cs, rfl⟩ := List.exists_cons_of_ne_nil hne
  have hc : (".".toList.contains c) = false := is_digit_not_delim (hd c (List.mem_cons_self _ _))
  have hall : ∀ a ∈ c :: cs, (!(".".toList.contains a)) = true := by
    intro a ha
    rw [is_digit_not_delim (hd a ha)]
    rfl
  have hdot : (!(".".toList.contains '.')) = false := by decide
  constructor
  · have h0 := dropWhile_head_false (fun c => ".".toList.contains c) c cs hc
    have h1 : List.takeWhile (fun c => !(".".toList.contains c)) (c :: cs) = c :: cs :=
      List.takeWhile_eq_self_iff.mpr hall
    have h2 : List.dropWhile (fun c => !(".".toList.contains c)) (c :: cs) = [] :=
      List.dropWhile_eq_nil_iff.mpr hall
    simp only [strtok_r]
    rw [h0, h1, h2]
    rfl
  · have h0 := dropWhile_head_false (fun c => ".".toList.contains c) c (cs ++ '.' :: rest) hc
    have h1 : List.takeWhile (fun c => !(".".toList.contains c)) ((c :: cs) ++ '.' :: rest)
        = c :: cs := by
      rw [List.takeWhile_append_of_pos hall, List.takeWhile_cons, hdot]
      simp
    have h2 : List.dropWhile (fun c => !(".".toList.contains c)) ((c :: cs) ++ '.' :: rest)
        = '.' :: rest := by
      rw [List.dropWhile_append_of_pos hall, List.dropWhile_cons, hdot]
      simp
    simp only [strtok_r]
    rw [List.cons_append] at h1 h2
    rw [List.cons_append, h0, h1, h2]
    rfl

/-- The text of an address, as inet_ntop writes it. -/
theorem inet_ntop_16 (a : in_addr) :
    inet_ntop a LSSDP_IP_LEN = some (fmt_u a.b0.val ++ '.' :: (fmt_u a.b1.val ++ '.' ::
      (fmt_u a.b2.val ++ '.' :: fmt_u a.b3.val))) := by
  have h0 := (fmt_u_byte a.b0).2.1
  have h1 := (fmt_u_byte a.b1).2.1
  have h2 := (fmt_u_byte a.b2).2.1
  have h3 := (fmt_u_byte a.b3).2.1
  unfold inet_ntop
  have hlen : (fmt_u a.b0.val ++ ".".toList ++ fmt_u a.b1.val ++ ".".toList ++
    fmt_u a.b2.val ++ ".".toList ++ fmt_u a.b3.val).length < LSSDP_IP_LEN := by
    simp [LSSDP_IP_LEN]
    omega
  simp only [hlen, if_true]
  simp

/-- Splitting the text of an address at the dots and converting the four
tokens gives the four bytes back. -/
theorem set_ip_inet_ntop (a : in_addr) (x0 x1 x2 x3 : Int) :
    set_ip 4 0 (fmt_u a.b0.val ++ '.' :: (fmt_u a.b1.val ++ '.' ::
      (fmt_u a.b2.val ++ '.' :: fmt_u a.b3.val))) [x0, x1, x2, x3]
      = some [(a.b0.val : Int), (a.b1.val : Int), (a.b2.val : Int), (a.b3.val : Int)] := by
  have t0 := (strtok_r_digits (fmt_u a.b0.val) (fmt_u a.b1.val ++ '.' ::
      (fmt_u a.b2.val ++ '.' :: fmt_u a.b3.val)) (fmt_u_is_digit _) (fmt_u_byte a.b0).1).2
  have t1 := (strtok_r_digits (fmt_u a.b1.val) (fmt_u a.b2.val ++ '.' :: fmt_u a.b3.val)
    (fmt_u_is_digit _) (fmt_u_byte a.b1).1).2
  have t2 := (strtok_r_digits (fmt_u a.b2.val) (fmt_u a.b3.val)
    (fmt_u_is_digit _) (fmt_u_byte a.b2).1).2
  have t3 := (strtok_r_digits (fmt_u a.b3.val) [] (fmt_u_is_digit _) (fmt_u_byte a.b3).1).1
  simp only [set_ip, t0, t1, t2, t3, (fmt_u_byte a.b0).2.2, (fmt_u_byte a.b1).2.2,
    (fmt_u_byte a.b2).2.2, (fmt_u_byte a.b3).2.2]
  rfl

/-! ## Lemmas: the loop over the interface list -/

theorem set_length_append {α : Type} (pre : List α) (x y : α) (tl : List α) :
    (pre ++ x :: tl).set pre.length y = pre ++ y :: tl := by
  induction pre with
  | nil => rfl
  | cons a pre ih => simp [List.set, ih]

theorem getElem?_length_append {α : Type} (pre : List α) (x : α) (tl : List α) :
    (pre ++ x :: tl)[pre.length]? = some x := by
  induction pre with
  | nil => simp
  | cons a pre ih => simpa using ih

theorem ifconf_loop_spec (h : Header) (ifs : List ifreq) :
    ∀ (num : Nat) (pre : List lssdp_interface) (ev : List Event),
      pre.length = min num h.LSSDP_INTERFACE_LIST_SIZE →
      ∃ logs, (∀ e ∈ logs, is_log e) ∧
        ifconf_loop h ifs num
          (pre ++ List.replicate (h.LSSDP_INTERFACE_LIST_SIZE - pre.length) (zero_interface h)) ev
        = some (0,
            pre ++ (((ipv4_entries ifs).take (h.LSSDP_INTERFACE_LIST_SIZE - pre.length)).map
                (stored_entry h) ++
              List.replicate (h.LSSDP_INTERFACE_LIST_SIZE - pre.length -
                ((ipv4_entries ifs).take (h.LSSDP_INTERFACE_LIST_SIZE - pre.length)).length)
                (zero_interface h)),
            ev ++ logs) := by
  induction ifs with
  | nil =>
    intro num pre ev _
    exact ⟨[], by simp, by simp [ifconf_loop, ipv4_entries]⟩
  | cons ifr rest ih =>
    intro num pre ev hpre
    by_cases hfam : ifr.sa_family = AF_INET
    · have hv4 : ipv4_entries (ifr :: rest) = ifr :: ipv4_entries rest := by
        simp [ipv4_entries, List.filter_cons, hfam]
      by_cases hnum : num ≥ h.LSSDP_INTERFACE_LIST_SIZE
      · have hlen : pre.length = h.LSSDP_INTERFACE_LIST_SIZE := by omega
        obtain ⟨logs, hlogs, hloop⟩ := ih (num + 1) pre
          (ev ++ [Event.log LogLevel.WARN, Event.log LogLevel.DEBUG]) (by omega)
        refine ⟨[Event.log LogLevel.WARN, Event.log LogLevel.DEBUG] ++ logs, ?_, ?_⟩
        · intro e he
          rcases List.mem_append.mp he with h1 | h1
          · simp at h1
            rcases h1 with h1 | h1 <;> exact ⟨_, h1⟩
          · exact hlogs e h1
        · unfold ifconf_loop
          rw [if_neg (by simpa using hfam), inet_ntop_16]
          simp only [hnum, if_true]
          rw [hloop]
          simp [hlen]
      · have hlen : pre.length = num := by omega
        have hlt : num < h.LSSDP_INTERFACE_LIST_SIZE := by omega
        obtain ⟨logs, hlogs, hloop⟩ := ih (num + 1) (pre ++ [stored_entry h ifr]) ev
          (by simp; omega)
        refine ⟨logs, hlogs, ?_⟩
        have hrep : List.replicate (h.LSSDP_INTERFACE_LIST_SIZE - pre.length) (zero_interface h)
            = zero_interface h ::
              List.replicate (h.LSSDP_INTERFACE_LIST_SIZE - (pre.length + 1)) (zero_interface h) := by
          rw [← List.replicate_succ]
          congr 1
          omega
        have hget : (pre ++ List.replicate (h.LSSDP_INTERFACE_LIST_SIZE - pre.length)
            (zero_interface h))[num]? = some (zero_interface h) := by
          rw [hrep, ← hlen]
          exact getElem?_length_append _ _ _
        have hset : (pre ++ List.replicate (h.LSSDP_INTERFACE_LIST_SIZE - pre.length)
            (zero_interface h)).set num (stored_entry h ifr)
            = (pre ++ [stored_entry h ifr]) ++ List.replicate
              (h.LSSDP_INTERFACE_LIST_SIZE - (pre ++ [stored_entry h ifr]).length)
              (zero_interface h) := by
          rw [hrep, ← hlen, set_length_append]
          simp
        have hip : set_ip 4 0 (fmt_u ifr.sin_addr.b0.val ++ '.' :: (fmt_u ifr.sin_addr.b1.val ++
            '.' :: (fmt_u ifr.sin_addr.b2.val ++ '.' :: fmt_u ifr.sin_addr.b3.val)))
            (zero_interface h).ip = some (stored_entry h ifr).ip :=
          set_ip_inet_ntop ifr.sin_addr 0 0 0 0
        unfold ifconf_loop
        rw [if_neg (by simpa using hfam), inet_ntop_16]
        simp only [hnum, if_false, hget, hip]
        have hentry : lssdp_interface.mk (snprintf (zero_interface h).name
            (h.LSSDP_INTERFACE_NAME_LEN - 1) [FmtArg.str ifr.ifr_name])
            (stored_entry h ifr).ip = stored_entry h ifr := rfl
        rw [hentry, hset, hloop, hv4]
        have htake : h.LSSDP_INTERFACE_LIST_SIZE - pre.length
            = (h.LSSDP_INTERFACE_LIST_SIZE - (pre.length + 1)) + 1 := by omega
        rw [htake, List.take_succ_cons]
        simp [List.append_assoc]
    · have hv4 : ipv4_entries (ifr :: rest) = ipv4_entries rest := by
        simp [ipv4_entries, List.filter_cons, hfam]
      obtain ⟨logs, hlogs, hloop⟩ := ih num pre ev hpre
      refine ⟨logs, hlogs, ?_⟩
      unfold ifconf_loop
      rw [if_pos (by simpa using hfam), hloop, hv4]

/-! ## Lemmas: lssdp_get_network_interface -/

theorem cstr_replicate_NUL (n : Nat) : cstr (List.replicate n NUL) = [] := by
  cases n with
  | zero => rfl
  | succ n => rfl

theorem refresh_socket_fails (h : Header) (lssdp : lssdp_ctx) (ioctl : Option (List ifreq)) :
    lssdp_get_network_interface h lssdp { socket := none, ioctl := ioctl } =
      some { ret := -1,
             lssdp := { lssdp with
               interface := List.replicate h.LSSDP_INTERFACE_LIST_SIZE (zero_interface h) },
             events := [Event.socket (-1), Event.log LogLevel.ERROR] } := by
  simp [lssdp_get_network_interface, socket_ret]

theorem refresh_ioctl_fails (h : Header) (lssdp : lssdp_ctx) (fd : Nat) :
    lssdp_get_network_interface h lssdp { socket := some fd, ioctl := none } =
      some { ret := -1,
             lssdp := { lssdp with
               interface := List.replicate h.LSSDP_INTERFACE_LIST_SIZE (zero_interface h) },
             events := [Event.socket fd, Event.ioctl fd SockOpt.SIOCGIFCONF,
               Event.log LogLevel.ERROR] ++ (if (fd : Int) > 0 then [Event.close fd] else []) } := by
  have hfd : ¬ ((fd : Int) < 0) := by omega
  simp [lssdp_get_network_interface, socket_ret, hfd]

theorem refresh_succeeds (h : Header) (lssdp : lssdp_ctx) (fd : Nat) (ifs : List ifreq) :
    ∃ logs, (∀ e ∈ logs, is_log e) ∧
      lssdp_get_network_interface h lssdp { socket := some fd, ioctl := some ifs } =
        some { ret := 0,
               lssdp := { lssdp with
                 interface :=
                   ((ipv4_entries ifs).take h.LSSDP_INTERFACE_LIST_SIZE).map (stored_entry h) ++
                   List.replicate (h.LSSDP_INTERFACE_LIST_SIZE -
                     ((ipv4_entries ifs).take h.LSSDP_INTERFACE_LIST_SIZE).length)
                     (zero_interface h) },
               events := [Event.socket fd, Event.ioctl fd SockOpt.SIOCGIFCONF] ++ logs ++
                 (if (fd : Int) > 0 then [Event.close fd] else []) } := by
  have hfd : ¬ ((fd : Int) < 0) := by omega
  obtain ⟨logs, hlogs, hloop⟩ := ifconf_loop_spec h ifs 0 []
    [Event.socket fd, Event.ioctl fd SockOpt.SIOCGIFCONF] (by simp)
  refine ⟨logs, hlogs, ?_⟩
  simp only [List.nil_append, List.length_nil, Nat.sub_zero] at hloop
  simp only [lssdp_get_network_interface, socket_ret, hfd, if_false, hloop, Option.map_some']

/-- The name array written for an interface: its C string is the start of the
name the system reports, and the array keeps its size. -/
theorem stored_entry_name (h : Header) (ifr : ifreq) (hlen : 2 ≤ h.LSSDP_INTERFACE_NAME_LEN) :
    cstr (stored_entry h ifr).name = (cstr ifr.ifr_name).take (h.LSSDP_INTERFACE_NAME_LEN - 2) ∧
    (stored_entry h ifr).name.length = h.LSSDP_INTERFACE_NAME_LEN := by
  have hsz : ¬ (h.LSSDP_INTERFACE_NAME_LEN - 1 = 0) := by omega
  have h2 : h.LSSDP_INTERFACE_NAME_LEN - 1 - 1 = h.LSSDP_INTERFACE_NAME_LEN - 2 := by omega
  simp only [stored_entry, snprintf, hsz, if_false, expand, List.append_nil, h2, zero_interface]
  constructor
  · exact cstr_append_NUL _ _ (fun c hc => cstr_no_NUL _ c (List.mem_of_mem_take hc))
  · simp only [List.length_append, List.length_cons, List.length_drop, List.length_replicate,
      List.length_take]
    omega

/-! ## Claims C4 and C5: lssdp_get_network_interface -/

theorem zero_table_cleared (h : Header) :
    ∀ e ∈ List.replicate h.LSSDP_INTERFACE_LIST_SIZE (zero_interface h),
      strlen e.name = 0 ∧ (∀ c ∈ e.name, c = NUL) ∧ e.ip = [0, 0, 0, 0] := by
  intro e he
  rw [List.eq_of_mem_replicate he]
  refine ⟨?_, ?_, rfl⟩
  · simp [strlen, zero_interface, cstr_replicate_NUL]
  · intro c hc
    exact List.eq_of_mem_replicate hc

/-- C4: a refresh that returns failure (socket() or ioctl() failed) leaves every
entry of the table cleared, whatever the table held before: all names are
NUL-filled and empty, all addresses are zero. The call always returns, with
0 or -1, and it fails exactly when one of the two system calls fails. -/
theorem C4_failed_refresh_clears_table (h : Header) (lssdp : lssdp_ctx) (os : RefreshOS) :
    ∃ r, lssdp_get_network_interface h lssdp os = some r ∧
      (r.ret = 0 ∨ r.ret = -1) ∧
      (r.ret ≠ 0 ↔ (os.socket = none ∨ os.ioctl = none)) ∧
      (r.ret ≠ 0 →
        r.lssdp.interface = List.replicate h.LSSDP_INTERFACE_LIST_SIZE (zero_interface h) ∧
        r.lssdp.interface.length = h.LSSDP_INTERFACE_LIST_SIZE ∧
        ∀ e ∈ r.lssdp.interface,
          strlen e.name = 0 ∧ (∀ c ∈ e.name, c = NUL) ∧ e.ip = [0, 0, 0, 0]) := by
  rcases os with ⟨_ | fd, ioctl⟩
  · exact ⟨_, refresh_socket_fails h lssdp ioctl, Or.inr rfl, by simp,
      fun _ => ⟨rfl, by simp, zero_table_cleared h⟩⟩
  · rcases ioctl with _ | ifs
    · exact ⟨_, refresh_ioctl_fails h lssdp fd, Or.inr rfl, by simp,
        fun _ => ⟨rfl, by simp, zero_table_cleared h⟩⟩
    · obtain ⟨logs, _, hr⟩ := refresh_succeeds h lssdp fd ifs
      exact ⟨_, hr, Or.inl rfl, by simp, fun hne => absurd rfl hne⟩

/-- An instance of C4: the ioctl() call fails on a context whose table still holds an entry
of an earlier refresh. -/
theorem C4_failed_refresh_clears_table_witness :
    ∃ r, lssdp_get_network_interface ⟨16, 2⟩
        { sock := -1, port := 1900,
          interface := [⟨"eth0".toList, [10, 0, 0, 1]⟩, ⟨"wlan0".toList, [10, 0, 0, 2]⟩],
          st := "a".toList, data_callback := none }
        { socket := some 3, ioctl := none } = some r ∧
      r.ret = -1 ∧
      r.lssdp.interface = List.replicate 2 (zero_interface ⟨16, 2⟩) := by
  obtain ⟨r, hr, _, hiff, hclr⟩ := C4_failed_refresh_clears_table ⟨16, 2⟩
    { sock := -1, port := 1900,
      interface := [⟨"eth0".toList, [10, 0, 0, 1]⟩, ⟨"wlan0".toList, [10, 0, 0, 2]⟩],
      st := "a".toList, data_callback := none }
    { socket := some 3, ioctl := none }
  have hne : r.ret ≠ 0 := hiff.mpr (Or.inr rfl)
  refine ⟨r, hr, ?_, (hclr hne).1⟩
  rw [refresh_ioctl_fails] at hr
  cases hr
  rfl

/-- C5: after a successful refresh over an interface list whose IPv4 entries
have non-empty names, the table has LSSDP_INTERFACE_LIST_SIZE entries; slot i,
for i below the smaller of the number of IPv4 entries and the table size, holds
the i-th IPv4 entry of the list: a non-empty name that is the reported name cut
to LSSDP_INTERFACE_NAME_LEN - 2 characters, inside a name array of unchanged
size, and the four bytes of the reported address; every later slot is
cleared. Entries of other families and IPv4 entries beyond the table size are
not stored. -/
theorem C5_refresh_stores_ipv4_entries (h : Header) (lssdp : lssdp_ctx) (fd : Nat)
    (ifs : List ifreq) (hlen : 3 ≤ h.LSSDP_INTERFACE_NAME_LEN)
    (hnames : ∀ ifr ∈ ipv4_entries ifs, strlen ifr.ifr_name ≠ 0) :
    ∃ r, lssdp_get_network_interface h lssdp { socket := some fd, ioctl := some ifs } = some r ∧
      r.ret = 0 ∧
      r.lssdp.interface.length = h.LSSDP_INTERFACE_LIST_SIZE ∧
      (∀ i, i < min (ipv4_entries ifs).length h.LSSDP_INTERFACE_LIST_SIZE →
        ∃ e ifr, r.lssdp.interface[i]? = some e ∧ (ipv4_entries ifs)[i]? = some ifr ∧
          strlen e.name ≠ 0 ∧
          cstr e.name = (cstr ifr.ifr_name).take (h.LSSDP_INTERFACE_NAME_LEN - 2) ∧
          e.name.length = h.LSSDP_INTERFACE_NAME_LEN ∧
          e.ip = [(ifr.sin_addr.b0.val : Int), (ifr.sin_addr.b1.val : Int),
                  (ifr.sin_addr.b2.val : Int), (ifr.sin_addr.b3.val : Int)]) ∧
      (∀ i, min (ipv4_entries ifs).length h.LSSDP_INTERFACE_LIST_SIZE ≤ i →
        i < h.LSSDP_INTERFACE_LIST_SIZE →
        r.lssdp.interface[i]? = some (zero_interface h)) := by
  obtain ⟨logs, _, hr⟩ := refresh_succeeds h lssdp fd ifs
  refine ⟨_, hr, rfl, ?_, ?_, ?_⟩
  · simp only [List.length_append, List.length_map, List.length_take, List.length_replicate]
    omega
  · intro i hi
    have hi1 : i < (ipv4_entries ifs).length := by omega
    have hi2 : i < h.LSSDP_INTERFACE_LIST_SIZE := by omega
    have hmem : (ipv4_entries ifs)[i] ∈ ipv4_entries ifs := List.getElem_mem _
    have hnm := stored_entry_name h (ipv4_entries ifs)[i] (by omega)
    refine ⟨stored_entry h (ipv4_entries ifs)[i], (ipv4_entries ifs)[i], ?_, ?_, ?_, hnm.1,
      hnm.2, rfl⟩
    · have hlt : i < (((ipv4_entries ifs).take h.LSSDP_INTERFACE_LIST_SIZE).map
          (stored_entry h)).length := by
        simp only [List.length_map, List.length_take]
        omega
      show (_ ++ _)[i]? = _
      rw [List.getElem?_append_left hlt, List.getElem?_map, List.getElem?_take_of_lt hi2,
        List.getElem?_eq_getElem hi1]
      rfl
    · exact List.getElem?_eq_getElem hi1
    · have hne := hnames _ hmem
      unfold strlen at hne ⊢
      rw [hnm.1, List.length_take]
      omega
  · intro i hi hiN
    show (_ ++ _)[i]? = _
    have hlen1 : (((ipv4_entries ifs).take h.LSSDP_INTERFACE_LIST_SIZE).map
        (stored_entry h)).length = min (ipv4_entries ifs).length h.LSSDP_INTERFACE_LIST_SIZE := by
      simp only [List.length_map, List.length_take]
      omega
    rw [List.getElem?_append_right (by omega), List.getElem?_replicate]
    simp only [List.length_take, List.length_map] at hlen1 ⊢
    rw [if_pos (by omega)]

/-- An instance of C5: a list with the loopback interface, an entry of
another family and two more IPv4 entries, refreshed into a table of two entries. -/
theorem C5_refresh_stores_ipv4_entries_witness :
    ∃ r, lssdp_get_network_interface ⟨16, 2⟩
        { sock := -1, port := 1900, interface := [], st := [], data_callback := none }
        { socket := some 3,
          ioctl := some [⟨"lo".toList, 2, ⟨127, 0, 0, 1⟩⟩, ⟨"eth0".toList, 10, ⟨0, 0, 0, 0⟩⟩,
                         ⟨"eth0".toList, 2, ⟨192, 168, 1, 20⟩⟩,
                         ⟨"wlan0".toList, 2, ⟨10, 0, 0, 7⟩⟩] } = some r ∧
      r.ret = 0 ∧ r.lssdp.interface.length = 2 ∧
      (∃ e, r.lssdp.interface[1]? = some e ∧ cstr e.name = "eth0".toList ∧
        e.ip = [192, 168, 1, 20]) := by
  obtain ⟨r, hr, hret, hlen, hstored, _⟩ := C5_refresh_stores_ipv4_entries ⟨16, 2⟩
    { sock := -1, port := 1900, interface := [], st := [], data_callback := none } 3
    [⟨"lo".toList, 2, ⟨127, 0, 0, 1⟩⟩, ⟨"eth0".toList, 10, ⟨0, 0, 0, 0⟩⟩,
     ⟨"eth0".toList, 2, ⟨192, 168, 1, 20⟩⟩, ⟨"wlan0".toList, 2, ⟨10, 0, 0, 7⟩⟩]
    (by decide) (by decide)
  obtain ⟨e, ifr, he, hifr, _, hname, _, hip⟩ := hstored 1 (by decide)
  have hifr2 : ifr = ⟨"eth0".toList, 2, ⟨192, 168, 1, 20⟩⟩ := by
    have h1 : (ipv4_entries [⟨"lo".toList, 2, ⟨127, 0, 0, 1⟩⟩, ⟨"eth0".toList, 10, ⟨0, 0, 0, 0⟩⟩,
      ⟨"eth0".toList, 2, ⟨192, 168, 1, 20⟩⟩, ⟨"wlan0".toList, 2, ⟨10, 0, 0, 7⟩⟩])[1]?
        = some ⟨"eth0".toList, 2, ⟨192, 168, 1, 20⟩⟩ := by decide
    rw [h1] at hifr
    exact (Option.some.inj hifr).symm
  subst hifr2
  exact ⟨r, hr, hret, hlen, e, he, hname, hip⟩

/-! ## Lemmas: lssdp_send_msearch -/

theorem msearch_loop_interfaces (msearch : List Char) (port : Int) (os : Nat → SendOS)
    (l : List lssdp_interface) :
    ∀ i, (msearch_loop msearch port os l i).map (fun c => c.interface)
      = l.takeWhile (fun e => decide (strlen e.name ≠ 0)) := by
  induction l with
  | nil => intro i; rfl
  | cons e rest ih =>
    intro i
    by_cases he : strlen e.name = 0
    · simp [msearch_loop, he, List.takeWhile_cons]
    · simp [msearch_loop, he, List.takeWhile_cons, ih]

theorem msearch_loop_index (msearch : List Char) (port : Int) (os : Nat → SendOS)
    (l : List lssdp_interface) :
    ∀ i, (msearch_loop msearch port os l i).map (fun c => c.index)
      = List.range' i (msearch_loop msearch port os l i).length := by
  induction l with
  | nil => intro i; rfl
  | cons e rest ih =>
    intro i
    by_cases he : strlen e.name = 0
    · simp [msearch_loop, he]
    · simp [msearch_loop, he, ih (i + 1), List.range'_succ]

theorem msearch_loop_data (msearch : List Char) (port : Int) (os : Nat → SendOS)
    (l : List lssdp_interface) :
    ∀ i, ∀ c ∈ msearch_loop msearch port os l i, c.data = msearch ∧ c.port = port := by
  induction l with
  | nil => intro i c hc; simp [msearch_loop] at hc
  | cons e rest ih =>
    intro i c hc
    by_cases he : strlen e.name = 0
    · simp [msearch_loop, he] at hc
    · simp only [msearch_loop, he, if_false, List.mem_cons] at hc
      rcases hc with hc | hc
      · subst hc; exact ⟨rfl, rfl⟩
      · exact ih _ c hc

theorem msearch_loop_ret (msearch : List Char) (port : Int) (os : Nat → SendOS)
    (l : List lssdp_interface) :
    ∀ i, ∀ c ∈ msearch_loop msearch port os l i,
      (c.ret, c.events) = send_multicast_data msearch c.interface port (os c.index) := by
  induction l with
  | nil => intro i c hc; simp [msearch_loop] at hc
  | cons e rest ih =>
    intro i c hc
    by_cases he : strlen e.name = 0
    · simp [msearch_loop, he] at hc
    · simp only [msearch_loop, he, if_false, List.mem_cons] at hc
      rcases hc with hc | hc
      · subst hc; rfl
      · exact ih _ c hc

/-- Positions in the longest initial segment whose elements satisfy `p`. -/
theorem takeWhile_index {α : Type} (p : α → Bool) (l : List α) :
    (∀ j, j < (l.takeWhile p).length →
      ∃ e, l[j]? = some e ∧ (l.takeWhile p)[j]? = some e ∧ p e = true) ∧
    (∀ e, l[(l.takeWhile p).length]? = some e → p e = false) := by
  induction l with
  | nil => simp
  | cons a l ih =>
    by_cases ha : p a = true
    · rw [List.takeWhile_cons, if_pos ha]
      constructor
      · intro j hj
        cases j with
        | zero => exact ⟨a, by simp, by simp, ha⟩
        | succ j =>
          have hj2 : j < (l.takeWhile p).length := by simpa using hj
          simpa using ih.1 j hj2
      · intro e he
        exact ih.2 e (by simpa using he)
    · rw [List.takeWhile_cons, if_neg ha]
      constructor
      · intro j hj
        simp at hj
      · intro e he
        simp at he
        subst he
        simpa using ha

theorem msearch_fanout_zero_table (h : Header) (msearch : List Char) (port : Int)
    (os : Nat → SendOS) :
    msearch_fanout h (List.replicate h.LSSDP_INTERFACE_LIST_SIZE (zero_interface h)) msearch
      port os = [] := by
  unfold msearch_fanout
  cases hN : h.LSSDP_INTERFACE_LIST_SIZE with
  | zero => rfl
  | succ n =>
    have hz : strlen (zero_interface h).name = 0 := by
      simp [strlen, zero_interface, cstr_replicate_NUL]
    simp [List.replicate_succ, msearch_loop, hz]

/-- The refresh returns; it leaves port and search target as they are, and a
failed one leaves the table cleared. -/
theorem refresh_total (h : Header) (lssdp : lssdp_ctx) (os : RefreshOS) :
    ∃ r, lssdp_get_network_interface h lssdp os = some r ∧
      r.lssdp.port = lssdp.port ∧ r.lssdp.st = lssdp.st ∧
      (r.ret ≠ 0 ↔ (os.socket = none ∨ os.ioctl = none)) ∧
      (r.ret ≠ 0 →
        r.lssdp.interface = List.replicate h.LSSDP_INTERFACE_LIST_SIZE (zero_interface h)) := by
  rcases os with ⟨_ | fd, ioctl⟩
  · exact ⟨_, refresh_socket_fails h lssdp ioctl, rfl, rfl, by simp, fun _ => rfl⟩
  · rcases ioctl with _ | ifs
    · exact ⟨_, refresh_ioctl_fails h lssdp fd, rfl, rfl, by simp, fun _ => rfl⟩
    · obtain ⟨logs, _, hr⟩ := refresh_succeeds h lssdp fd ifs
      exact ⟨_, hr, rfl, rfl, by simp, fun hne => absurd rfl hne⟩

/-- The function lssdp_send_msearch returns, with 0, after the loop over the refreshed
table. -/
theorem msearch_total (h : Header) (lssdp : lssdp_ctx) (os : MsearchOS) :
    ∃ r, lssdp_get_network_interface h lssdp os.refresh = some r ∧
      lssdp_send_msearch h lssdp os = some
        { ret := 0, lssdp := r.lssdp, refresh_events := r.events,
          calls := msearch_fanout h r.lssdp.interface (msearch_packet r.lssdp) r.lssdp.port
            os.send } := by
  obtain ⟨r, hr, _⟩ := refresh_total h lssdp os.refresh
  refine ⟨r, hr, ?_⟩
  simp only [lssdp_send_msearch, hr]

/-! ## Claims C1, C2, C3 and C9: lssdp_send_msearch -/

theorem msearch_packet_length (lssdp : lssdp_ctx) : (msearch_packet lssdp).length = 1024 := by
  unfold msearch_packet snprintf
  rw [if_neg (by decide)]
  simp only [List.length_append, List.length_cons, List.length_drop, List.length_replicate,
    List.length_take]
  omega

/-- C1: the C string that lssdp_send_msearch formats into msearch[1024] is
the discovery request text (port in decimal, the search target read up to its
first NUL) cut to 1023 characters; the array keeps its 1024 characters; a text
of at most 1023 characters is stored whole; search target urn:test:service:1
and port 1900 give the literal text; and this array is the data argument of
every send_multicast_data call of the round. -/
theorem C1_msearch_packet_text (lssdp : lssdp_ctx) :
    cstr (msearch_packet lssdp) = (spec_msearch_text (cstr lssdp.st) lssdp.port).take 1023 ∧
    strlen (msearch_packet lssdp) ≤ 1023 ∧
    (msearch_packet lssdp).length = 1024 ∧
    ((spec_msearch_text (cstr lssdp.st) lssdp.port).length ≤ 1023 →
      cstr (msearch_packet lssdp) = spec_msearch_text (cstr lssdp.st) lssdp.port) ∧
    (cstr lssdp.st = "urn:test:service:1".toList → lssdp.port = 1900 →
      cstr (msearch_packet lssdp) =
        ("M-SEARCH * HTTP/1.1\r\nHOST:239.255.255.250:1900\r\n" ++
         "MAN:\"ssdp:discover\"\r\nST:urn:test:service:1\r\nMX:1\r\n\r\n").toList) ∧
    (∀ (h : Header) (os : MsearchOS) (m : MsearchResult),
      lssdp_send_msearch h lssdp os = some m →
        ∀ c ∈ m.calls, c.data = msearch_packet lssdp) := by
  have hpk := msearch_packet_eq lssdp
  refine ⟨hpk, ?_, msearch_packet_length lssdp, ?_, ?_, ?_⟩
  · unfold strlen
    rw [hpk, List.length_take]
    omega
  · intro hfit
    rw [hpk, List.take_of_length_le hfit]
  · intro hst hport
    rw [hpk, hst, hport]
    decide
  · intro h os m hm c hc
    obtain ⟨r, hr, hport, hst, _⟩ := refresh_total h lssdp os.refresh
    obtain ⟨r2, hr2, hm2⟩ := msearch_total h lssdp os
    rw [hr] at hr2
    cases hr2
    rw [hm2] at hm
    cases hm
    have hd := (msearch_loop_data _ _ _ _ _ c hc).1
    rw [hd]
    unfold msearch_packet msearch_format
    rw [hport, hst]

/-- An instance of C1: search target urn:test:service:1, stored in a longer array, and port
1900. -/
theorem C1_msearch_packet_text_witness :
    cstr (msearch_packet
      { sock := 3, port := 1900, interface := [],
        st := "urn:test:service:1".toList ++ [NUL, 'x', 'y'], data_callback := none }) =
      ("M-SEARCH * HTTP/1.1\r\nHOST:239.255.255.250:1900\r\n" ++
       "MAN:\"ssdp:discover\"\r\nST:urn:test:service:1\r\nMX:1\r\n\r\n").toList :=
  (C1_msearch_packet_text
      { sock := 3, port := 1900, interface := [],
        st := "urn:test:service:1".toList ++ [NUL, 'x', 'y'],
        data_callback := none }).2.2.2.2.1 (by decide) rfl

/-- C2: the loop of lssdp_send_msearch calls send_multicast_data once for
each of the entries 0, 1, ... of the table that come before the first entry
with an empty name, in index order, and for no other entry: at most
LSSDP_INTERFACE_LIST_SIZE calls, call j is for entry j, which has a non-empty
name, and when the loop stops before the table size, the entry it stopped at
has an empty name. Entries behind that one are not visited. -/
theorem C2_fanout_stops_at_first_empty_name (h : Header) (table : List lssdp_interface)
    (msearch : List Char) (port : Int) (os : Nat → SendOS) :
    (msearch_fanout h table msearch port os).map (fun c => c.interface) =
      (table.take h.LSSDP_INTERFACE_LIST_SIZE).takeWhile (fun e => decide (strlen e.name ≠ 0)) ∧
    (msearch_fanout h table msearch port os).map (fun c => c.index) =
      List.range (msearch_fanout h table msearch port os).length ∧
    (msearch_fanout h table msearch port os).length ≤ h.LSSDP_INTERFACE_LIST_SIZE ∧
    (∀ j, j < (msearch_fanout h table msearch port os).length →
      ∃ e, table[j]? = some e ∧
        ((msearch_fanout h table msearch port os).map (fun c => c.interface))[j]? = some e ∧
        strlen e.name ≠ 0) ∧
    (∀ e, (msearch_fanout h table msearch port os).length < h.LSSDP_INTERFACE_LIST_SIZE →
      table[(msearch_fanout h table msearch port os).length]? = some e →
      strlen e.name = 0) := by
  have hif := msearch_loop_interfaces msearch port os (table.take h.LSSDP_INTERFACE_LIST_SIZE) 0
  have hix := msearch_loop_index msearch port os (table.take h.LSSDP_INTERFACE_LIST_SIZE) 0
  have hlen : (msearch_fanout h table msearch port os).length =
      ((table.take h.LSSDP_INTERFACE_LIST_SIZE).takeWhile
        (fun e => decide (strlen e.name ≠ 0))).length := by
    unfold msearch_fanout
    rw [← hif, List.length_map]
  have hle : (msearch_fanout h table msearch port os).length ≤ h.LSSDP_INTERFACE_LIST_SIZE := by
    rw [hlen]
    have h1 := (List.takeWhile_sublist (l := table.take h.LSSDP_INTERFACE_LIST_SIZE)
      (fun e : lssdp_interface => decide (strlen e.name ≠ 0))).length_le
    have h2 := List.length_take_le h.LSSDP_INTERFACE_LIST_SIZE table
    omega
  have hidx := takeWhile_index (fun e : lssdp_interface => decide (strlen e.name ≠ 0))
    (table.take h.LSSDP_INTERFACE_LIST_SIZE)
  refine ⟨hif, ?_, hle, ?_, ?_⟩
  · rw [List.range_eq_range']
    exact hix
  · intro j hj
    obtain ⟨e, he1, he2, he3⟩ := hidx.1 j (by rw [← hlen]; exact hj)
    refine ⟨e, ?_, ?_, by simpa using he3⟩
    · rw [← he1, List.getElem?_take_of_lt (by omega)]
    · unfold msearch_fanout
      rw [hif]
      exact he2
  · intro e hlt he
    have he2 : (table.take h.LSSDP_INTERFACE_LIST_SIZE)[((table.take
        h.LSSDP_INTERFACE_LIST_SIZE).takeWhile
          (fun e => decide (strlen e.name ≠ 0))).length]? = some e := by
      rw [← hlen, List.getElem?_take_of_lt hlt]
      exact he
    simpa using hidx.2 e he2

/-- An instance of C2: the second entry has an empty name, the third a stale non-empty
one; only the first entry is sent to. -/
theorem C2_fanout_stops_at_first_empty_name_witness :
    (msearch_fanout ⟨8, 4⟩
      [⟨"eth0".toList ++ [NUL], [10, 0, 0, 1]⟩, ⟨[NUL, 'x'], [0, 0, 0, 0]⟩,
       ⟨"wlan0".toList ++ [NUL], [10, 0, 0, 2]⟩, ⟨"lo".toList ++ [NUL], [127, 0, 0, 1]⟩]
      "M".toList 1900 (fun i => ⟨some (i + 3), true, true, true, true⟩)).map
        (fun c => c.interface) = [⟨"eth0".toList ++ [NUL], [10, 0, 0, 1]⟩] :=
  (C2_fanout_stops_at_first_empty_name ⟨8, 4⟩
      [⟨"eth0".toList ++ [NUL], [10, 0, 0, 1]⟩, ⟨[NUL, 'x'], [0, 0, 0, 0]⟩,
       ⟨"wlan0".toList ++ [NUL], [10, 0, 0, 2]⟩, ⟨"lo".toList ++ [NUL], [127, 0, 0, 1]⟩]
      "M".toList 1900 (fun i => ⟨some (i + 3), true, true, true, true⟩)).1.trans (by decide)

/-- C3: which interfaces the loop of lssdp_send_msearch calls
send_multicast_data for, and in which order, does not depend on the outcomes
of the system calls inside those calls: two runs over the same table with any
two assignments of outcomes make the same sequence of calls; the function
lssdp_send_msearch returns 0 under every assignment; and over three stored
interfaces with the sendto() of the middle one failing, the calls are for
entries 0, 1 and 2, returning 0, -1 and 0. -/
theorem C3_send_failure_does_not_stop_round :
    (∀ (h : Header) (table : List lssdp_interface) (msearch : List Char) (port : Int)
        (os1 os2 : Nat → SendOS),
      (msearch_fanout h table msearch port os1).map (fun c => (c.index, c.interface)) =
        (msearch_fanout h table msearch port os2).map (fun c => (c.index, c.interface))) ∧
    (∀ (h : Header) (lssdp : lssdp_ctx) (refresh : RefreshOS) (send1 send2 : Nat → SendOS),
      ∃ m1 m2, lssdp_send_msearch h lssdp ⟨refresh, send1⟩ = some m1 ∧
        lssdp_send_msearch h lssdp ⟨refresh, send2⟩ = some m2 ∧
        m1.ret = 0 ∧ m2.ret = 0 ∧
        m1.calls.map (fun c => (c.index, c.interface)) =
          m2.calls.map (fun c => (c.index, c.interface))) ∧
    (msearch_fanout ⟨8, 4⟩
      [⟨"eth0".toList ++ [NUL], [10, 0, 0, 1]⟩, ⟨"eth1".toList ++ [NUL], [10, 0, 0, 2]⟩,
       ⟨"wlan0".toList ++ [NUL], [10, 0, 0, 3]⟩, ⟨[NUL], [0, 0, 0, 0]⟩]
      "M".toList 1900 (fun i => ⟨some (i + 3), true, true, true, decide (i ≠ 1)⟩)).map
        (fun c => (c.index, cstr c.interface.name, c.ret)) =
      [(0, "eth0".toList, 0), (1, "eth1".toList, -1), (2, "wlan0".toList, 0)] := by
  have hloop : ∀ (h : Header) (table : List lssdp_interface) (msearch : List Char) (port : Int)
      (os1 os2 : Nat → SendOS),
      (msearch_fanout h table msearch port os1).map (fun c => (c.index, c.interface)) =
        (msearch_fanout h table msearch port os2).map (fun c => (c.index, c.interface)) := by
    intro h table msearch port os1 os2
    have key : ∀ (os : Nat → SendOS) (l : List lssdp_interface) (i : Nat),
        (msearch_loop msearch port os l i).map (fun c => (c.index, c.interface)) =
          List.zip (List.range' i (l.takeWhile (fun e => decide (strlen e.name ≠ 0))).length)
            (l.takeWhile (fun e => decide (strlen e.name ≠ 0))) := by
      intro os l
      induction l with
      | nil => intro i; rfl
      | cons e rest ih =>
        intro i
        by_cases he : strlen e.name = 0
        · simp [msearch_loop, he, List.takeWhile_cons]
        · simp [msearch_loop, he, List.takeWhile_cons, ih (i + 1), List.range'_succ]
    unfold msearch_fanout
    rw [key os1, key os2]
  refine ⟨hloop, ?_, by decide⟩
  intro h lssdp refresh send1 send2
  obtain ⟨r1, hr1, hm1⟩ := msearch_total h lssdp ⟨refresh, send1⟩
  obtain ⟨r2, hr2, hm2⟩ := msearch_total h lssdp ⟨refresh, send2⟩
  have hr : r1 = r2 := Option.some.inj (hr1.symm.trans hr2)
  subst hr
  exact ⟨_, _, hm1, hm2, rfl, rfl, hloop _ _ _ _ _ _⟩

/-- C9, as the code behaves: the function lssdp_send_msearch drops the return value of the
refresh and returns 0 whether the refresh succeeded or failed; after a failed
refresh the table is cleared, so the loop makes no send_multicast_data call. -/
theorem C9_msearch_returns_zero_after_failed_refresh (h : Header) (lssdp : lssdp_ctx)
    (os : MsearchOS) :
    ∃ r m, lssdp_get_network_interface h lssdp os.refresh = some r ∧
      lssdp_send_msearch h lssdp os = some m ∧
      m.ret = 0 ∧
      (r.ret ≠ 0 ↔ (os.refresh.socket = none ∨ os.refresh.ioctl = none)) ∧
      (r.ret ≠ 0 → m.calls = []) := by
  obtain ⟨r, hr, _, _, hiff, hclr⟩ := refresh_total h lssdp os.refresh
  obtain ⟨r2, hr2, hm⟩ := msearch_total h lssdp os
  have hrr : r2 = r := Option.some.inj (hr2.symm.trans hr)
  subst hrr
  refine ⟨r2, _, hr, hm, rfl, hiff, ?_⟩
  intro hne
  show msearch_fanout h r2.lssdp.interface _ _ _ = []
  rw [hclr hne]
  exact msearch_fanout_zero_table h _ _ _

/-- C9 as stated fails: with socket() failing inside the refresh, the refresh
returns -1 and lssdp_send_msearch still returns 0. -/
theorem C9_failed_refresh_still_returns_success :
    (lssdp_get_network_interface ⟨8, 2⟩
        { sock := 3, port := 1900, interface := [], st := "a".toList, data_callback := none }
        { socket := none, ioctl := none }).map (fun r => r.ret) = some (-1) ∧
    (lssdp_send_msearch ⟨8, 2⟩
        { sock := 3, port := 1900, interface := [], st := "a".toList, data_callback := none }
        { refresh := { socket := none, ioctl := none },
          send := fun _ => ⟨some 4, true, true, true, true⟩ }).map (fun m => m.ret) = some 0 := by
  constructor
  · rfl
  · rfl

/-! ## Claims C6 and C7: lssdp_read_socket -/

/-- C6, as the code behaves: when recvfrom() fails, with EWOULDBLOCK as with
any other errno, lssdp_read_socket logs an error and returns -1; it does not
call the data callback. -/
theorem C6_read_socket_recv_failure (lssdp : lssdp_ctx) (errno : Nat) :
    lssdp_read_socket lssdp (RecvOS.error errno) =
      (-1, [Event.recvfrom lssdp.sock, Event.log LogLevel.ERROR]) ∧
    lssdp_read_socket lssdp (RecvOS.error EWOULDBLOCK) =
      lssdp_read_socket lssdp (RecvOS.error errno) ∧
    (∀ fn c buffer len,
      Event.data_callback fn c buffer len ∉ (lssdp_read_socket lssdp (RecvOS.error errno)).2) := by
  have h1 : ∀ e, lssdp_read_socket lssdp (RecvOS.error e) =
      (-1, [Event.recvfrom lssdp.sock, Event.log LogLevel.ERROR]) := by
    intro e
    simp [lssdp_read_socket]
  refine ⟨h1 errno, by rw [h1, h1], ?_⟩
  intro fn c buffer len
  rw [h1]
  simp

/-- C6 as stated fails: with nothing pending (EWOULDBLOCK) on a context with a
data callback, lssdp_read_socket returns -1 and logs an error, the same
outcome as for the failure EBADF. -/
theorem C6_would_block_is_reported_as_error :
    lssdp_read_socket
        { sock := 3, port := 1900, interface := [], st := [], data_callback := some 1 }
        (RecvOS.error EWOULDBLOCK) = (-1, [Event.recvfrom 3, Event.log LogLevel.ERROR]) ∧
    lssdp_read_socket
        { sock := 3, port := 1900, interface := [], st := [], data_callback := some 1 }
        (RecvOS.error EWOULDBLOCK) =
      lssdp_read_socket
        { sock := 3, port := 1900, interface := [], st := [], data_callback := some 1 }
        (RecvOS.error EBADF) := by
  constructor
  · rfl
  · rfl

/-- The function lssdp_read_socket with a datagram pending and a data callback set. -/
theorem read_socket_callback (lssdp : lssdp_ctx) (bytes : List Nat) (fn : Nat)
    (hfn : lssdp.data_callback = some fn) :
    lssdp_read_socket lssdp (RecvOS.datagram bytes) =
      (0, [Event.recvfrom lssdp.sock,
           Event.data_callback fn lssdp
             (bytes.take 2048 ++ (List.replicate 2048 0).drop (min bytes.length 2048))
             ((min bytes.length 2048 : Nat) : Int)]) := by
  have hne : ¬ (((bytes.take 2048).length : Nat) : Int) = -1 := by omega
  simp only [lssdp_read_socket, List.length_replicate, hne, if_false, hfn]
  simp only [List.length_take, Nat.min_comm 2048 bytes.length]

/-- C7, as the code behaves: with a datagram of length L pending,
lssdp_read_socket returns 0. When the data callback is set it is called
exactly once, with the context, the 2048-byte buffer and the length
min(L, 2048); the first min(L, 2048) bytes of the buffer are the first bytes
of the datagram, so for L up to 2048 they are the whole datagram and the
length is L. When the callback is not set, a warning is logged and nothing is
called. -/
theorem C7_read_socket_delivers_datagram (lssdp : lssdp_ctx) (bytes : List Nat) :
    (∀ fn, lssdp.data_callback = some fn →
      ∃ buffer, lssdp_read_socket lssdp (RecvOS.datagram bytes) =
          (0, [Event.recvfrom lssdp.sock,
               Event.data_callback fn lssdp buffer ((min bytes.length 2048 : Nat) : Int)]) ∧
        buffer.length = 2048 ∧
        buffer.take (min bytes.length 2048) = bytes.take 2048 ∧
        (bytes.length ≤ 2048 → buffer.take bytes.length = bytes)) ∧
    (lssdp.data_callback = none →
      lssdp_read_socket lssdp (RecvOS.datagram bytes) =
        (0, [Event.recvfrom lssdp.sock, Event.log LogLevel.WARN])) := by
  have hne : ¬ (((bytes.take 2048).length : Nat) : Int) = -1 := by omega
  have hl : min bytes.length 2048 = (bytes.take 2048).length := by
    simp only [List.length_take]
    omega
  constructor
  · intro fn hfn
    refine ⟨_, read_socket_callback lssdp bytes fn hfn, ?_, ?_, ?_⟩
    · simp only [List.length_append, List.length_drop, List.length_replicate, List.length_take]
      omega
    · rw [hl, List.take_left]
    · intro hle
      have hb : bytes.take 2048 = bytes := List.take_of_length_le hle
      rw [hb, List.take_left]
  · intro hnone
    simp only [lssdp_read_socket, List.length_replicate, hne, if_false, hnone]

/-- An instance of C7: a three-byte datagram on a context with a data callback. -/
theorem C7_read_socket_delivers_datagram_witness :
    ∃ buffer,
      lssdp_read_socket
          { sock := 3, port := 1900, interface := [], st := [], data_callback := some 1 }
          (RecvOS.datagram [72, 84, 80]) =
        (0, [Event.recvfrom 3,
             Event.data_callback 1
               { sock := 3, port := 1900, interface := [], st := [], data_callback := some 1 }
               buffer 3]) ∧
      buffer.take 3 = [72, 84, 80] := by
  obtain ⟨buffer, h1, _, _, h4⟩ := (C7_read_socket_delivers_datagram
    { sock := 3, port := 1900, interface := [], st := [], data_callback := some 1 }
    [72, 84, 80]).1 1 rfl
  exact ⟨buffer, h1, h4 (by decide)⟩

/-- C7 as stated fails: a pending datagram of 2049 bytes is handed to the
callback with length 2048, not 2049. -/
theorem C7_long_datagram_is_cut :
    ∃ buffer,
      lssdp_read_socket
          { sock := 3, port := 1900, interface := [], st := [], data_callback := some 1 }
          (RecvOS.datagram (List.replicate 2049 7)) =
        (0, [Event.recvfrom 3,
             Event.data_callback 1
               { sock := 3, port := 1900, interface := [], st := [], data_callback := some 1 }
               buffer 2048]) ∧
      (List.replicate 2049 7).length = 2049 := by
  have h := read_socket_callback
    { sock := 3, port := 1900, interface := [], st := [], data_callback := some 1 }
    (List.replicate 2049 7) 1 rfl
  rw [List.length_replicate] at h
  exact ⟨_, h, List.length_replicate _ _⟩

/-! ## Claim C8: lssdp_create_socket -/

theorem open_after_append (es1 es2 : List Event) :
    ∀ fds, open_after fds (es1 ++ es2) = open_after (open_after fds es1) es2 := by
  induction es1 with
  | nil => intro fds; rfl
  | cons e es ih =>
    intro fds
    cases e <;> simp [open_after, ih]

theorem open_after_logs (logs : List Event) (hlogs : ∀ e ∈ logs, is_log e) :
    ∀ fds, open_after fds logs = fds := by
  induction logs with
  | nil => intro fds; rfl
  | cons e es ih =>
    intro fds
    obtain ⟨l, rfl⟩ := hlogs e (List.mem_cons_self _ _)
    simp only [open_after]
    exact ih (fun x hx => hlogs x (List.mem_cons_of_mem _ hx)) fds

theorem create_socket_socket_fails (lssdp : lssdp_ctx) (a b c d : Bool) :
    lssdp_create_socket lssdp ⟨none, a, b, c, d⟩ =
      { ret := -1, lssdp := { lssdp with sock := -1 },
        events := closes_prior lssdp ++ [Event.socket (-1), Event.log LogLevel.ERROR] } := by
  unfold lssdp_create_socket closes_prior
  by_cases hs : lssdp.sock ≥ 0 <;> simp [hs, socket_ret]

theorem create_socket_socket_ok (lssdp : lssdp_ctx) (fd : Nat) (a b c d : Bool) :
    lssdp_create_socket lssdp ⟨some fd, a, b, c, d⟩ =
      if (create_socket_body fd lssdp.port ⟨some fd, a, b, c, d⟩).1 = -1 then
        { ret := -1, lssdp := { lssdp with sock := -1 },
          events := closes_prior lssdp ++ Event.socket fd ::
            ((create_socket_body fd lssdp.port ⟨some fd, a, b, c, d⟩).2 ++ [Event.close fd]) }
      else
        { ret := (create_socket_body fd lssdp.port ⟨some fd, a, b, c, d⟩).1,
          lssdp := { lssdp with sock := fd },
          events := closes_prior lssdp ++ Event.socket fd ::
            (create_socket_body fd lssdp.port ⟨some fd, a, b, c, d⟩).2 } := by
  have hfd : ¬ ((fd : Int) < 0) := by omega
  unfold lssdp_create_socket closes_prior
  by_cases hs : lssdp.sock ≥ 0
  · simp only [hs, if_true, socket_ret, hfd, if_false]
    split <;> simp_all
  · simp only [hs, if_false, socket_ret, hfd]
    split <;> simp_all

theorem create_socket_body_ret (sock port : Int) (os : CreateOS) :
    ((create_socket_body sock port os).1 = 0 ∧ os.ioctl_ok = true ∧ os.reuseaddr_ok = true ∧
        os.bind_ok = true ∧ os.membership_ok = true ∧
        (create_socket_body sock port os).2 =
          [Event.ioctl sock SockOpt.FIONBIO, Event.setsockopt sock SockOpt.SO_REUSEADDR,
           Event.bind sock "0.0.0.0".toList port,
           Event.setsockopt sock SockOpt.IP_ADD_MEMBERSHIP]) ∨
    (create_socket_body sock port os).1 = -1 := by
  rcases os with ⟨s, a, b, c, d⟩
  cases a <;> cases b <;> cases c <;> cases d <;> simp [create_socket_body]

theorem create_socket_body_neutral (sock port : Int) (os : CreateOS) :
    ∀ fds, open_after fds (create_socket_body sock port os).2 = fds := by
  intro fds
  rcases os with ⟨s, a, b, c, d⟩
  cases a <;> cases b <;> cases c <;> cases d <;> simp [create_socket_body, open_after]

/-- C8: lssdp_create_socket first closes a socket the context owns, then ends
in one of two states. Success: it returns 0, socket() handed out a descriptor,
the four calls that make it non-blocking, allow address reuse, bind it and
join the group all succeeded, in this order, and the context holds that
descriptor, which is open. Failure: it returns -1, the context holds -1, and a
descriptor that socket() handed out has been closed as the last call. The
other fields of the context are unchanged, and of the descriptors the context
owned before or the call created, the only one open afterwards is the one the
context holds after a success. -/
theorem C8_create_socket_outcomes (lssdp : lssdp_ctx) (os : CreateOS) :
    (∃ tl, (lssdp_create_socket lssdp os).events = closes_prior lssdp ++ tl) ∧
    (lssdp_create_socket lssdp os).lssdp =
      { lssdp with sock := (lssdp_create_socket lssdp os).lssdp.sock } ∧
    (((lssdp_create_socket lssdp os).ret = 0 ∧
        ∃ fd : Nat, os.socket = some fd ∧ (lssdp_create_socket lssdp os).lssdp.sock = fd ∧
          os.ioctl_ok = true ∧ os.reuseaddr_ok = true ∧ os.bind_ok = true ∧
          os.membership_ok = true ∧
          (lssdp_create_socket lssdp os).events = closes_prior lssdp ++
            [Event.socket fd, Event.ioctl fd SockOpt.FIONBIO,
             Event.setsockopt fd SockOpt.SO_REUSEADDR,
             Event.bind fd "0.0.0.0".toList lssdp.port,
             Event.setsockopt fd SockOpt.IP_ADD_MEMBERSHIP] ∧
          open_after (owned lssdp) (lssdp_create_socket lssdp os).events = [(fd : Int)]) ∨
     ((lssdp_create_socket lssdp os).ret = -1 ∧
        (lssdp_create_socket lssdp os).lssdp.sock = -1 ∧
        (os.socket = none →
          (lssdp_create_socket lssdp os).events = closes_prior lssdp ++
            [Event.socket (-1), Event.log LogLevel.ERROR]) ∧
        (∀ fd : Nat, os.socket = some fd →
          ∃ mid, (lssdp_create_socket lssdp os).events =
            closes_prior lssdp ++ Event.socket fd :: (mid ++ [Event.close fd])) ∧
        open_after (owned lssdp) (lssdp_create_socket lssdp os).events = [])) := by
  have hpre : open_after (owned lssdp) (closes_prior lssdp) = [] := by
    unfold owned closes_prior
    by_cases hs : lssdp.sock ≥ 0
    · simp [hs, open_after]
    · simp [hs, open_after]
  rcases os with ⟨_ | fd, a, b, c, d⟩
  · rw [create_socket_socket_fails]
    refine ⟨⟨_, rfl⟩, rfl, Or.inr ⟨rfl, rfl, fun _ => rfl, ?_, ?_⟩⟩
    · intro fd hfd
      cases hfd
    · show open_after (owned lssdp)
        (closes_prior lssdp ++ [Event.socket (-1), Event.log LogLevel.ERROR]) = []
      rw [open_after_append, hpre]
      simp [open_after]
  · have hfd : ¬ ((fd : Int) < 0) := by omega
    have hev : ∀ tl, open_after (owned lssdp) (closes_prior lssdp ++ Event.socket fd :: tl)
        = open_after [(fd : Int)] tl := by
      intro tl
      rw [open_after_append, hpre]
      simp [open_after, hfd]
    rw [create_socket_socket_ok]
    rcases create_socket_body_ret fd lssdp.port ⟨some fd, a, b, c, d⟩ with hok | hbad
    · obtain ⟨h0, ha, hb, hc, hd, hevs⟩ := hok
      have hne : ¬ ((create_socket_body fd lssdp.port ⟨some fd, a, b, c, d⟩).1 = -1) := by
        rw [h0]
        decide
      rw [if_neg hne]
      refine ⟨⟨_, rfl⟩, rfl, Or.inl ⟨h0, fd, rfl, rfl, ha, hb, hc, hd, ?_, ?_⟩⟩
      · show closes_prior lssdp ++ Event.socket fd :: _ = _
        rw [hevs]
      · show open_after (owned lssdp) (closes_prior lssdp ++ Event.socket fd :: _) = _
        rw [hev, create_socket_body_neutral]
    · rw [if_pos hbad]
      refine ⟨⟨_, rfl⟩, rfl, Or.inr ⟨rfl, rfl, ?_, ?_, ?_⟩⟩
      · intro hnone
        cases hnone
      · intro fd2 hfd2
        cases hfd2
        exact ⟨_, rfl⟩
      · show open_after (owned lssdp) (closes_prior lssdp ++ Event.socket fd :: _) = _
        rw [hev, open_after_append, create_socket_body_neutral]
        simp [open_after]

/-! ## Claim C10: descriptors of the short-lived sockets -/

theorem send_multicast_body_events (data : List Char) (interface : lssdp_interface)
    (ssdp_port : Int) (os : SendOS) (fd : Nat) :
    ∃ tl, (send_multicast_body data interface ssdp_port os fd).2 = Event.socket fd :: tl ∧
      ∀ fds, open_after fds tl = fds := by
  have hfd : ¬ ((fd : Int) < 0) := by omega
  rcases os with ⟨s, a, b, c, d⟩
  cases a <;> cases b <;> cases c <;> cases d <;>
    simp [send_multicast_body, hfd, open_after]

/-- The descriptors left open by send_multicast_data once its arguments have
passed the checks and socket() has handed out `fd`. -/
theorem send_multicast_data_open (data : List Char) (interface : lssdp_interface)
    (ssdp_port : Int) (fd : Nat) (b1 b2 b3 b4 : Bool)
    (hdata : strlen data ≠ 0) (hname : strlen interface.name ≠ 0)
    (hport : 0 ≤ ssdp_port ∧ ssdp_port ≤ 65535) :
    open_after [] (send_multicast_data data interface ssdp_port ⟨some fd, b1, b2, b3, b4⟩).2 =
      if (fd : Int) > 0 then [] else [(fd : Int)] := by
  have hfd : ¬ ((fd : Int) < 0) := by omega
  have hp : ¬ (ssdp_port < 0 ∨ ssdp_port > 65535) := by omega
  obtain ⟨tl, htl, hneutral⟩ :=
    send_multicast_body_events data interface ssdp_port ⟨some fd, b1, b2, b3, b4⟩ fd
  simp only [send_multicast_data, hdata, hname, hp, if_false, socket_ret]
  rw [htl, List.cons_append, open_after, if_neg hfd, open_after_append, hneutral]
  by_cases h0 : (fd : Int) > 0
  · simp [h0, open_after]
  · simp [h0, open_after]

/-- The descriptors left open by lssdp_get_network_interface once socket() has
handed out `fd`. -/
theorem refresh_open (h : Header) (lssdp : lssdp_ctx) (fd : Nat) (ioctl : Option (List ifreq)) :
    ∃ r, lssdp_get_network_interface h lssdp ⟨some fd, ioctl⟩ = some r ∧
      open_after [] r.events = if (fd : Int) > 0 then [] else [(fd : Int)] := by
  have hfd : ¬ ((fd : Int) < 0) := by omega
  rcases ioctl with _ | ifs
  · refine ⟨_, refresh_ioctl_fails h lssdp fd, ?_⟩
    by_cases h0 : (fd : Int) > 0
    · simp [h0, open_after, hfd]
    · simp [h0, open_after, hfd]
  · obtain ⟨logs, hlogs, hr⟩ := refresh_succeeds h lssdp fd ifs
    refine ⟨_, hr, ?_⟩
    show open_after [] ([Event.socket fd, Event.ioctl fd SockOpt.SIOCGIFCONF] ++ logs ++ _) = _
    rw [open_after_append, open_after_append, open_after_logs logs hlogs]
    by_cases h0 : (fd : Int) > 0
    · simp [h0, open_after, hfd]
    · simp [h0, open_after, hfd]

/-- C10 fails on the code for descriptor 0: when socket() hands out 0,
send_multicast_data (with arguments that pass its checks) and
lssdp_get_network_interface return on every path with descriptor 0 still open,
because the cleanup closes only descriptors greater than 0. A descriptor
greater than 0 is closed on every path. -/
theorem C10_descriptor_zero_is_left_open :
    (∀ (data : List Char) (interface : lssdp_interface) (ssdp_port : Int) (b1 b2 b3 b4 : Bool),
      strlen data ≠ 0 → strlen interface.name ≠ 0 → 0 ≤ ssdp_port ∧ ssdp_port ≤ 65535 →
      open_after []
        (send_multicast_data data interface ssdp_port ⟨some 0, b1, b2, b3, b4⟩).2 = [0]) ∧
    (∀ (h : Header) (lssdp : lssdp_ctx) (ioctl : Option (List ifreq)),
      ∃ r, lssdp_get_network_interface h lssdp ⟨some 0, ioctl⟩ = some r ∧
        open_after [] r.events = [0]) ∧
    (∀ (data : List Char) (interface : lssdp_interface) (ssdp_port : Int) (fd : Nat)
        (b1 b2 b3 b4 : Bool),
      strlen data ≠ 0 → strlen interface.name ≠ 0 → 0 ≤ ssdp_port ∧ ssdp_port ≤ 65535 →
      0 < fd →
      open_after []
        (send_multicast_data data interface ssdp_port ⟨some fd, b1, b2, b3, b4⟩).2 = []) ∧
    (∀ (h : Header) (lssdp : lssdp_ctx) (fd : Nat) (ioctl : Option (List ifreq)), 0 < fd →
      ∃ r, lssdp_get_network_interface h lssdp ⟨some fd, ioctl⟩ = some r ∧
        open_after [] r.events = []) ∧
    (send_multicast_data "M".toList ⟨"eth0".toList, [10, 0, 0, 1]⟩ 1900
        ⟨some 0, true, true, true, true⟩).2 =
      [Event.socket 0, Event.bind 0 "10.0.0.1".toList 0,
       Event.setsockopt 0 SockOpt.IP_MULTICAST_LOOP, Event.inet_aton LSSDP_MULTICAST_ADDR,
       Event.sendto 0 "M".toList LSSDP_MULTICAST_ADDR 1900] := by
  refine ⟨?_, ?_, ?_, ?_, by decide⟩
  · intro data interface ssdp_port b1 b2 b3 b4 hdata hname hport
    exact send_multicast_data_open data interface ssdp_port 0 b1 b2 b3 b4 hdata hname hport
  · intro h lssdp ioctl
    exact refresh_open h lssdp 0 ioctl
  · intro data interface ssdp_port fd b1 b2 b3 b4 hdata hname hport hfd
    have h0 : ((fd : Nat) : Int) > 0 := by omega
    rw [send_multicast_data_open data interface ssdp_port fd b1 b2 b3 b4 hdata hname hport,
      if_pos h0]
  · intro h lssdp fd ioctl hfd
    have h0 : ((fd : Nat) : Int) > 0 := by omega
    obtain ⟨r, hr, hopen⟩ := refresh_open h lssdp fd ioctl
    exact ⟨r, hr, by rw [hopen, if_pos h0]⟩

end Lssdp
